import Mathlib

/-!
Verification of the spoiler-hiding content script (src/Content.js).

The script is embedded shallowly:
* strings are lists of characters (`Str`), lower-casing is `Char.toLower`
  mapped over the list, and JavaScript's `String.prototype.includes` is the
  executable substring test `strIncludes`;
* `containsSpoiler` mirrors the matcher on a keyword list parameter
  (the global `spoilerKeywords`);
* a video element is a record of its title slot (the text content of the
  title element found by the query, `none` when the element is absent) and
  its thumbnail container (overlay-child count and CSS position);
* `processVideoElement` mirrors the annotator's control flow, returning the
  branch taken (`AnnotationOutcome`), the updated element, and whether the
  matcher was consulted;
* the MutationObserver callback is modelled on the list of mutation records
  of one batch, returning how many times `processAllVideoElements` runs.
-/

abbrev Str := List Char

/-- Lower-casing of a string, as `text.toLowerCase()` (per character). -/
def lowerStr (s : Str) : Str := s.map Char.toLower

/-- Prefix test used by `strIncludes`. -/
def hasPrefixCheck : Str → Str → Bool
  | [], _ => true
  | _ :: _, [] => false
  | c :: cs, d :: ds => c = d && hasPrefixCheck cs ds

/-- JavaScript `haystack.includes(needle)`: the needle occurs contiguously. -/
def strIncludes (needle : Str) : Str → Bool
  | [] => decide (needle = [])
  | c :: cs => hasPrefixCheck needle (c :: cs) || strIncludes needle cs

/-- Embedding of `containsSpoiler` (src/Content.js:12-16): lower-case the
text, and test whether some keyword, lower-cased, occurs in it. -/
def containsSpoiler (spoilerKeywords : List Str) (text : Str) : Bool :=
  spoilerKeywords.any fun keyword => strIncludes (lowerStr keyword) (lowerStr text)

/-- The fixed sentinel title text written by the masking branch. -/
def sentinel : Str := "Spoiler".toList

/-- The thumbnail container: how many `.spoiler-overlay` children it holds
and its (computed) CSS position. -/
structure Thumbnail where
  overlayCount : Nat
  position : Str
deriving DecidableEq

/-- One video element: its title slot (text of the title element found by
the query; `none` when no title element matches) and its thumbnail
container (`none` when no thumbnail container matches). Overlays inserted
by the script live under the thumbnail container. -/
structure VideoElement where
  titleSlot : Option Str
  thumbnail : Option Thumbnail
deriving DecidableEq

/-- Result of `videoElement.querySelector(".spoiler-overlay")` being
non-null: an overlay child exists somewhere under the element. -/
def hasSpoilerOverlay (v : VideoElement) : Bool :=
  match v.thumbnail with
  | some t => decide (0 < t.overlayCount)
  | none => false

/-- Number of overlay children under the thumbnail slot of the element. -/
def overlayCountOf (v : VideoElement) : Nat :=
  match v.thumbnail with
  | some t => t.overlayCount
  | none => 0

/-- The overlay-insertion block (src/Content.js:51-79): if no overlay child
exists yet, set the container position to relative when it is static, and
append one overlay child; otherwise leave the container unchanged. -/
def addOverlay (t : Thumbnail) : Thumbnail :=
  if t.overlayCount = 0 then
    { overlayCount := t.overlayCount + 1,
      position := if t.position = "static".toList then "relative".toList else t.position }
  else t

/-- The four control-flow branches of `processVideoElement`, named as in the
Annotator contract of the specification. -/
inductive AnnotationOutcome
  | skippedNoTitle
  | skippedAlreadyMasked
  | skippedNoMatch
  | masked
deriving DecidableEq

/-- Result of one `processVideoElement` call: which branch ran, the updated
element, and whether `containsSpoiler` was invoked. -/
structure AnnotateResult where
  outcome : AnnotationOutcome
  state : VideoElement
  matcherInvoked : Bool
deriving DecidableEq

/-- Embedding of `processVideoElement` (src/Content.js:24-83).
The guard `titleElement && titleElement.textContent` is absence or empty
text (JavaScript truthiness of a string); the already-processed guard is
title text equal to the sentinel AND an overlay child under the element;
on a keyword match the title is overwritten with the sentinel and, when a
thumbnail container exists, the overlay-insertion block runs on it. -/
def processVideoElement (spoilerKeywords : List Str) (v : VideoElement) : AnnotateResult :=
  match v.titleSlot with
  | none => ⟨AnnotationOutcome.skippedNoTitle, v, false⟩
  | some originalTitle =>
    if originalTitle = [] then
      ⟨AnnotationOutcome.skippedNoTitle, v, false⟩
    else if originalTitle = sentinel ∧ hasSpoilerOverlay v = true then
      ⟨AnnotationOutcome.skippedAlreadyMasked, v, false⟩
    else if containsSpoiler spoilerKeywords originalTitle then
      ⟨AnnotationOutcome.masked,
        { titleSlot := some sentinel, thumbnail := v.thumbnail.map addOverlay }, true⟩
    else
      ⟨AnnotationOutcome.skippedNoMatch, v, true⟩

/-- The element state after one `processVideoElement` call. -/
def annotateState (spoilerKeywords : List Str) (v : VideoElement) : VideoElement :=
  (processVideoElement spoilerKeywords v).state

/-- Embedding of `processAllVideoElements` (src/Content.js:88-106): for each
container-selector category, process each matched element. -/
def processAllVideoElements (spoilerKeywords : List Str)
    (categories : List (List VideoElement)) : List (List VideoElement) :=
  categories.map fun items => items.map (annotateState spoilerKeywords)

/-- The element state after a sequence of `processVideoElement` calls (each
with its own keyword list; successive scan passes hit the item once each). -/
def annotateSeq (calls : List (List Str)) (v : VideoElement) : VideoElement :=
  calls.foldl (fun s spoilerKeywords => annotateState spoilerKeywords s) v

/-- One record of a mutation batch, reduced to the node counts the callback
inspects. -/
structure MutationRecord where
  addedNodesLength : Nat
  removedNodesLength : Nat
deriving DecidableEq

/-- The flag computed by the observer callback (src/Content.js:114-120):
`newContentAdded` starts false and each record with at least one added node
sets it. -/
def newContentAdded (mutations : List MutationRecord) : Bool :=
  mutations.foldl (fun acc m => if 0 < m.addedNodesLength then true else acc) false

/-- How many times the observer callback calls `processAllVideoElements` for
one delivered batch (src/Content.js:122-125): once when the flag is set,
never otherwise. -/
def observerScanAllCalls (mutations : List MutationRecord) : Nat :=
  if newContentAdded mutations then 1 else 0

/-- Specification-level notion: `k` is a case-insensitive substring of `t`. -/
def caseInsensitiveSubstr (k t : Str) : Prop :=
  List.IsInfix (lowerStr k) (lowerStr t)

theorem hasPrefixCheck_iff (n h : Str) : hasPrefixCheck n h = true ↔ n <+: h := by
  induction n generalizing h with
  | nil => simp [hasPrefixCheck]
  | cons c cs ih =>
    cases h with
    | nil => simp [hasPrefixCheck]
    | cons d ds =>
      simp [hasPrefixCheck, ih, List.cons_prefix_cons]

theorem strIncludes_iff (n h : Str) : strIncludes n h = true ↔ n <:+: h := by
  induction h with
  | nil => simp only [strIncludes, decide_eq_true_eq, List.infix_nil]
  | cons c cs ih =>
    simp [strIncludes, hasPrefixCheck_iff, ih, List.infix_cons_iff]

theorem strIncludes_nil_left (h : Str) : strIncludes [] h = true := by
  rw [strIncludes_iff]
  exact List.nil_infix

theorem containsSpoiler_iff_aux (spoilerKeywords : List Str) (text : Str) :
    containsSpoiler spoilerKeywords text = true ↔
      ∃ k, k ∈ spoilerKeywords ∧ caseInsensitiveSubstr k text := by
  simp only [containsSpoiler, List.any_eq_true, strIncludes_iff]
  exact exists_congr fun k => Iff.rfl

theorem sentinel_ne_nil : sentinel ≠ ([] : Str) := by decide

theorem processVideoElement_none (spoilerKeywords : List Str) (v : VideoElement)
    (ht : v.titleSlot = none) :
    processVideoElement spoilerKeywords v =
      ⟨AnnotationOutcome.skippedNoTitle, v, false⟩ := by
  obtain ⟨ts, th⟩ := v
  obtain rfl : ts = none := ht
  rfl

theorem processVideoElement_some (spoilerKeywords : List Str) (v : VideoElement) (t : Str)
    (ht : v.titleSlot = some t) :
    processVideoElement spoilerKeywords v =
      (if t = [] then ⟨AnnotationOutcome.skippedNoTitle, v, false⟩
       else if t = sentinel ∧ hasSpoilerOverlay v = true then
         ⟨AnnotationOutcome.skippedAlreadyMasked, v, false⟩
       else if containsSpoiler spoilerKeywords t then
         ⟨AnnotationOutcome.masked,
           { titleSlot := some sentinel, thumbnail := v.thumbnail.map addOverlay }, true⟩
       else ⟨AnnotationOutcome.skippedNoMatch, v, true⟩ : AnnotateResult) := by
  obtain ⟨ts, th⟩ := v
  obtain rfl : ts = some t := ht
  rfl

/-- Claim C1: an item already in the masked state (sentinel title text and an
overlay child present) is skipped as already masked before the matcher is
consulted, and the element is returned entirely unchanged. -/
theorem annotate_idempotent_on_masked (spoilerKeywords : List Str) (v : VideoElement)
    (ht : v.titleSlot = some sentinel) (ho : hasSpoilerOverlay v = true) :
    processVideoElement spoilerKeywords v =
      ⟨AnnotationOutcome.skippedAlreadyMasked, v, false⟩ := by
  rw [processVideoElement_some spoilerKeywords v sentinel ht,
    if_neg sentinel_ne_nil, if_pos ⟨rfl, ho⟩]

theorem annotate_idempotent_on_masked_w :
    processVideoElement [] ⟨some sentinel, some ⟨1, "static".toList⟩⟩ =
      ⟨AnnotationOutcome.skippedAlreadyMasked,
        ⟨some sentinel, some ⟨1, "static".toList⟩⟩, false⟩ :=
  annotate_idempotent_on_masked [] ⟨some sentinel, some ⟨1, "static".toList⟩⟩ rfl (by decide)

/-- Claim C2: for keyword lists of non-empty strings, the matcher returns
true exactly when some keyword is a case-insensitive substring of the text,
and it returns false on the empty string. (It is a plain total function of
its arguments.) -/
theorem containsSpoiler_correct (spoilerKeywords : List Str) (text : Str)
    (hk : ∀ k, k ∈ spoilerKeywords → k ≠ []) :
    (containsSpoiler spoilerKeywords text = true ↔
      ∃ k, k ∈ spoilerKeywords ∧ caseInsensitiveSubstr k text) ∧
    containsSpoiler spoilerKeywords [] = false := by
  refine ⟨containsSpoiler_iff_aux _ _, ?_⟩
  rw [Bool.eq_false_iff]
  intro hcontra
  rw [containsSpoiler_iff_aux] at hcontra
  obtain ⟨k, hkmem, hsub⟩ := hcontra
  have hmapnil : lowerStr k = [] := List.infix_nil.mp hsub
  have hknil : k = [] := by simpa [lowerStr] using hmapnil
  exact hk k hkmem hknil

theorem containsSpoiler_correct_w :
    (∀ k, k ∈ ["finale".toList] → k ≠ ([] : Str)) ∧
    ((containsSpoiler ["finale".toList] "Season Finale Recap".toList = true ↔
        ∃ k, k ∈ ["finale".toList] ∧ caseInsensitiveSubstr k "Season Finale Recap".toList) ∧
      containsSpoiler ["finale".toList] [] = false) :=
  ⟨by decide, containsSpoiler_correct ["finale".toList] "Season Finale Recap".toList (by decide)⟩

/-- Claim C10: a keyword list containing the empty string makes the matcher
return true on every text, the empty text included — the non-empty-keyword
invariant is necessary for the false-on-empty-text behaviour. -/
theorem empty_keyword_matches_all (spoilerKeywords : List Str) (text : Str)
    (h : ([] : Str) ∈ spoilerKeywords) :
    containsSpoiler spoilerKeywords text = true := by
  rw [containsSpoiler_iff_aux]
  exact ⟨[], h, show List.IsInfix (lowerStr []) (lowerStr text) from List.nil_infix⟩

theorem empty_keyword_matches_all_w :
    containsSpoiler [([] : Str)] [] = true :=
  empty_keyword_matches_all [[]] [] (by decide)

/-- Claim C3 counterexample: on an item whose title is the sentinel but which
has no overlay child, the step-2 short-circuit does not fire — the matcher IS
re-invoked on the sentinel text and the outcome is not skipped-already-masked. -/
theorem title_only_short_circuit_cex :
    (processVideoElement ["finale".toList] ⟨some sentinel, none⟩).matcherInvoked = true ∧
      (processVideoElement ["finale".toList] ⟨some sentinel, none⟩).outcome ≠
        AnnotationOutcome.skippedAlreadyMasked := by
  decide

/-- Claim C3 (amended): for an item whose title equals the sentinel but which
has no overlay child, the already-masked short-circuit does not fire (the
guard needs both halves); the matcher is re-invoked on the sentinel text,
and the outcome is masked or skipped-no-match according to whether a keyword
matches the sentinel. -/
theorem title_only_rematches (spoilerKeywords : List Str) (v : VideoElement)
    (ht : v.titleSlot = some sentinel) (ho : hasSpoilerOverlay v = false) :
    (processVideoElement spoilerKeywords v).matcherInvoked = true ∧
      (processVideoElement spoilerKeywords v).outcome =
        (if containsSpoiler spoilerKeywords sentinel then AnnotationOutcome.masked
         else AnnotationOutcome.skippedNoMatch) := by
  have hns : ¬(sentinel = sentinel ∧ hasSpoilerOverlay v = true) := by
    rintro ⟨-, hc⟩
    rw [hc] at ho
    exact absurd ho (by decide)
  rw [processVideoElement_some spoilerKeywords v sentinel ht,
    if_neg sentinel_ne_nil, if_neg hns]
  by_cases hm : containsSpoiler spoilerKeywords sentinel = true
  · rw [if_pos hm, if_pos hm]
    exact ⟨rfl, rfl⟩
  · rw [if_neg hm, if_neg hm]
    exact ⟨rfl, rfl⟩

theorem title_only_rematches_w :
    (processVideoElement ["war".toList] ⟨some sentinel, none⟩).matcherInvoked = true ∧
      (processVideoElement ["war".toList] ⟨some sentinel, none⟩).outcome =
        (if containsSpoiler ["war".toList] sentinel then AnnotationOutcome.masked
         else AnnotationOutcome.skippedNoMatch) :=
  title_only_rematches ["war".toList] ⟨some sentinel, none⟩ rfl rfl

/-- Claim C4 counterexample: an item whose title text is a single space
(whitespace-only) is NOT skipped as no-title; the matcher is consulted,
because the code guard only tests JavaScript truthiness (non-emptiness). -/
theorem no_title_skip_cex :
    (processVideoElement ["finale".toList] ⟨some " ".toList, none⟩).outcome ≠
        AnnotationOutcome.skippedNoTitle ∧
      (processVideoElement ["finale".toList] ⟨some " ".toList, none⟩).matcherInvoked = true := by
  decide

/-- Claim C4 (amended): when the title slot is absent or its text is the
empty string, the annotator returns skipped-no-title, mutates nothing and
does not consult the matcher. (Whitespace-only text is truthy and does not
take this branch.) -/
theorem annotate_no_title_skip (spoilerKeywords : List Str) (v : VideoElement)
    (h : v.titleSlot = none ∨ v.titleSlot = some []) :
    processVideoElement spoilerKeywords v =
      ⟨AnnotationOutcome.skippedNoTitle, v, false⟩ := by
  rcases h with h | h
  · exact processVideoElement_none spoilerKeywords v h
  · rw [processVideoElement_some spoilerKeywords v [] h, if_pos rfl]

theorem annotate_no_title_skip_w :
    processVideoElement [] ⟨none, none⟩ =
      ⟨AnnotationOutcome.skippedNoTitle, ⟨none, none⟩, false⟩ :=
  annotate_no_title_skip [] ⟨none, none⟩ (Or.inl rfl)

/-- Claim C5: an item whose (non-empty) title matches a keyword but whose
thumbnail container is absent gets its title overwritten with the sentinel,
no overlay inserted (the overlay count of the result is zero), and the
outcome is masked — the absent slot is a normal outcome, not an error. -/
theorem partial_masking (spoilerKeywords : List Str) (v : VideoElement) (title : Str)
    (ht : v.titleSlot = some title) (hne : title ≠ [])
    (hm : containsSpoiler spoilerKeywords title = true)
    (hth : v.thumbnail = none) :
    processVideoElement spoilerKeywords v =
        ⟨AnnotationOutcome.masked, ⟨some sentinel, none⟩, true⟩ ∧
      overlayCountOf (processVideoElement spoilerKeywords v).state = 0 := by
  have hov : hasSpoilerOverlay v = false := by
    unfold hasSpoilerOverlay
    rw [hth]
  have hns : ¬(title = sentinel ∧ hasSpoilerOverlay v = true) := by
    rintro ⟨-, hc⟩
    rw [hc] at hov
    exact absurd hov (by decide)
  have he : processVideoElement spoilerKeywords v =
      ⟨AnnotationOutcome.masked,
        ⟨some sentinel, v.thumbnail.map addOverlay⟩, true⟩ := by
    rw [processVideoElement_some spoilerKeywords v title ht,
      if_neg hne, if_neg hns, if_pos hm]
  rw [he, hth]
  exact ⟨rfl, rfl⟩

theorem partial_masking_w :
    processVideoElement ["finale".toList] ⟨some "Season Finale Recap".toList, none⟩ =
        ⟨AnnotationOutcome.masked, ⟨some sentinel, none⟩, true⟩ ∧
      overlayCountOf
        (processVideoElement ["finale".toList]
          ⟨some "Season Finale Recap".toList, none⟩).state = 0 :=
  partial_masking ["finale".toList] ⟨some "Season Finale Recap".toList, none⟩
    "Season Finale Recap".toList rfl (by decide) (by decide) rfl

/-- Claim C7: an item with a present, non-empty, non-sentinel title whose
text the matcher rejects is returned exactly as it came in — outcome
skipped-no-match, state unchanged (title, overlays and position included),
so the item stays eligible for future passes. -/
theorem no_match_frame (spoilerKeywords : List Str) (v : VideoElement) (title : Str)
    (ht : v.titleSlot = some title) (hne : title ≠ []) (hns : title ≠ sentinel)
    (hm : containsSpoiler spoilerKeywords title = false) :
    processVideoElement spoilerKeywords v =
      ⟨AnnotationOutcome.skippedNoMatch, v, true⟩ := by
  rw [processVideoElement_some spoilerKeywords v title ht, if_neg hne,
    if_neg (fun hc => hns hc.1), if_neg (by simp [hm])]

theorem no_match_frame_w :
    processVideoElement ["finale".toList]
        ⟨some "hello world".toList, some ⟨0, "static".toList⟩⟩ =
      ⟨AnnotationOutcome.skippedNoMatch,
        ⟨some "hello world".toList, some ⟨0, "static".toList⟩⟩, true⟩ :=
  no_match_frame ["finale".toList] ⟨some "hello world".toList, some ⟨0, "static".toList⟩⟩
    "hello world".toList rfl (by decide) (by decide) (by decide)

theorem addOverlay_count_le (t : Thumbnail) :
    (addOverlay t).overlayCount ≤ max t.overlayCount 1 := by
  unfold addOverlay
  split
  · next h0 => simp [h0]
  · exact le_max_left _ _

theorem overlayCount_annotate_le (spoilerKeywords : List Str) (v : VideoElement) :
    overlayCountOf (annotateState spoilerKeywords v) ≤ max (overlayCountOf v) 1 := by
  obtain ⟨ts, th⟩ := v
  cases ts with
  | none => exact le_max_left _ _
  | some t =>
    show overlayCountOf (processVideoElement spoilerKeywords ⟨some t, th⟩).state ≤ _
    rw [processVideoElement_some spoilerKeywords ⟨some t, th⟩ t rfl]
    split_ifs with h1 h2 h3
    · exact le_max_left _ _
    · exact le_max_left _ _
    · cases th with
      | none => simp [overlayCountOf]
      | some t2 => simpa [overlayCountOf] using addOverlay_count_le t2
    · exact le_max_left _ _

theorem annotateSeq_overlay_le_one (calls : List (List Str)) (v : VideoElement)
    (h : overlayCountOf v ≤ 1) : overlayCountOf (annotateSeq calls v) ≤ 1 := by
  induction calls generalizing v with
  | nil => exact h
  | cons c cs ih =>
    rw [show annotateSeq (c :: cs) v = annotateSeq cs (annotateState c v) from rfl]
    refine ih (annotateState c v) ?_
    exact (overlayCount_annotate_le c v).trans (Nat.max_le.mpr ⟨h, le_refl 1⟩)

/-- Claim C6: one annotator call inserts at most one overlay (the count grows
by at most one); starting from at most one overlay, any sequence of annotator
calls — and hence of scan passes, each of which applies exactly one annotator
call per item — keeps the overlay count at most one, since an existing
overlay suppresses insertion of another. -/
theorem at_most_one_overlay (calls : List (List Str)) (spoilerKeywords : List Str)
    (v : VideoElement) (categories : List (List VideoElement))
    (h : overlayCountOf v ≤ 1) :
    overlayCountOf (annotateState spoilerKeywords v) ≤ overlayCountOf v + 1 ∧
      overlayCountOf (annotateSeq calls v) ≤ 1 ∧
      processAllVideoElements spoilerKeywords categories =
        categories.map (List.map (annotateState spoilerKeywords)) := by
  refine ⟨?_, annotateSeq_overlay_le_one calls v h, rfl⟩
  exact (overlayCount_annotate_le spoilerKeywords v).trans
    (Nat.max_le.mpr ⟨Nat.le_succ _, Nat.le_add_left 1 _⟩)

theorem at_most_one_overlay_w :
    overlayCountOf ⟨some "big spoiler".toList, some ⟨0, "static".toList⟩⟩ ≤ 1 ∧
      (overlayCountOf
          (annotateState ["spoiler".toList]
            ⟨some "big spoiler".toList, some ⟨0, "static".toList⟩⟩) ≤
        overlayCountOf ⟨some "big spoiler".toList, some ⟨0, "static".toList⟩⟩ + 1 ∧
      overlayCountOf
          (annotateSeq [["spoiler".toList], ["spoiler".toList]]
            ⟨some "big spoiler".toList, some ⟨0, "static".toList⟩⟩) ≤ 1 ∧
      processAllVideoElements ["spoiler".toList]
          [[⟨some "big spoiler".toList, some ⟨0, "static".toList⟩⟩]] =
        [[⟨some "big spoiler".toList, some ⟨0, "static".toList⟩⟩]].map
          (List.map (annotateState ["spoiler".toList]))) :=
  ⟨by decide,
    at_most_one_overlay [["spoiler".toList], ["spoiler".toList]] ["spoiler".toList]
      ⟨some "big spoiler".toList, some ⟨0, "static".toList⟩⟩
      [[⟨some "big spoiler".toList, some ⟨0, "static".toList⟩⟩]] (by decide)⟩

theorem foldl_newContent (mutations : List MutationRecord) (b : Bool) :
    mutations.foldl (fun acc m => if 0 < m.addedNodesLength then true else acc) b =
      (b || mutations.any fun m => decide (0 < m.addedNodesLength)) := by
  induction mutations generalizing b with
  | nil => simp
  | cons m ms ih =>
    rw [List.foldl_cons, ih, List.any_cons]
    by_cases h : 0 < m.addedNodesLength
    · simp [h]
    · simp [h]

/-- Claim C8: for one delivered mutation batch, the observer callback runs
the full scan exactly once when some record of the batch added at least one
node (however many), and does not run it at all when no record added any. -/
theorem batch_coalescing (mutations : List MutationRecord) :
    (observerScanAllCalls mutations = 1 ↔
        ∃ m, m ∈ mutations ∧ 0 < m.addedNodesLength) ∧
      (observerScanAllCalls mutations = 0 ↔
        ∀ m, m ∈ mutations → m.addedNodesLength = 0) := by
  unfold observerScanAllCalls newContentAdded
  rw [foldl_newContent, Bool.false_or]
  by_cases h : ∃ m, m ∈ mutations ∧ 0 < m.addedNodesLength
  · have hb : (mutations.any fun m => decide (0 < m.addedNodesLength)) = true := by
      simp only [List.any_eq_true, decide_eq_true_eq]
      exact h
    rw [if_pos hb]
    refine ⟨⟨fun _ => h, fun _ => rfl⟩, ?_, ?_⟩
    · intro h10
      exact absurd h10 (by decide)
    · intro hall
      obtain ⟨m, hmem, hpos⟩ := h
      have := hall m hmem
      omega
  · have hb : (mutations.any fun m => decide (0 < m.addedNodesLength)) = false := by
      simp only [List.any_eq_false, decide_eq_false_iff_not]
      intro m hmem hpos
      exact h ⟨m, hmem, of_decide_eq_true hpos⟩
    rw [if_neg (by simp [hb])]
    refine ⟨⟨fun h01 => absurd h01 (by decide), fun hex => absurd hex h⟩, fun _ m hmem => ?_,
      fun _ => rfl⟩
    by_contra hne
    exact h ⟨m, hmem, Nat.pos_of_ne_zero hne⟩

/-- Claim C9: when some keyword is a case-insensitive substring of the
sentinel, an item whose title equals the sentinel but which lacks an overlay
child has the matcher re-invoked, the match succeeds, and the masking branch
runs again: the title is (re)written to the sentinel and, when a thumbnail
container is present, an overlay is inserted. -/
theorem sentinel_self_match (spoilerKeywords : List Str) (k : Str) (v : VideoElement)
    (hk : k ∈ spoilerKeywords) (hsub : caseInsensitiveSubstr k sentinel)
    (ht : v.titleSlot = some sentinel) (ho : hasSpoilerOverlay v = false) :
    (processVideoElement spoilerKeywords v).matcherInvoked = true ∧
      (processVideoElement spoilerKeywords v).outcome = AnnotationOutcome.masked ∧
      (processVideoElement spoilerKeywords v).state.titleSlot = some sentinel ∧
      overlayCountOf (processVideoElement spoilerKeywords v).state =
        (if v.thumbnail.isSome then 1 else 0) := by
  have hm : containsSpoiler spoilerKeywords sentinel = true :=
    (containsSpoiler_iff_aux spoilerKeywords sentinel).mpr ⟨k, hk, hsub⟩
  have hns : ¬(sentinel = sentinel ∧ hasSpoilerOverlay v = true) := by
    rintro ⟨-, hc⟩
    rw [hc] at ho
    exact absurd ho (by decide)
  rw [processVideoElement_some spoilerKeywords v sentinel ht,
    if_neg sentinel_ne_nil, if_neg hns, if_pos hm]
  refine ⟨rfl, rfl, rfl, ?_⟩
  cases hth : v.thumbnail with
  | none => rfl
  | some t =>
    have h0 : t.overlayCount = 0 := by
      unfold hasSpoilerOverlay at ho
      rw [hth] at ho
      simp only [decide_eq_false_iff_not, Nat.not_lt, Nat.le_zero] at ho
      exact ho
    simp [overlayCountOf, addOverlay, h0]

theorem sentinel_self_match_w :
    (processVideoElement ["spoiler".toList]
        ⟨some sentinel, some ⟨0, "static".toList⟩⟩).matcherInvoked = true ∧
      (processVideoElement ["spoiler".toList]
          ⟨some sentinel, some ⟨0, "static".toList⟩⟩).outcome = AnnotationOutcome.masked ∧
      (processVideoElement ["spoiler".toList]
          ⟨some sentinel, some ⟨0, "static".toList⟩⟩).state.titleSlot = some sentinel ∧
      overlayCountOf
          (processVideoElement ["spoiler".toList]
            ⟨some sentinel, some ⟨0, "static".toList⟩⟩).state =
        (if (some (⟨0, "static".toList⟩ : Thumbnail)).isSome then 1 else 0) :=
  sentinel_self_match ["spoiler".toList] "spoiler".toList
    ⟨some sentinel, some ⟨0, "static".toList⟩⟩ (by decide)
    (show List.IsInfix (lowerStr "spoiler".toList) (lowerStr sentinel) by decide) rfl rfl
